import Mathlib

/-!
Shallow embedding of the ChoCo chord-conversion pipeline
(repository andreamust/choco), covering:

* `src/choco/converters/converter_instances.py` — `parse_jams`,
  `parse_jams_dataset`: per-file chord/key conversion, annotation merge
  policy, and the aggregate conversion-metadata table;
* `src/choco/parsers.py` — `ChoCoTune._get_measures` and
  `parse_ireal_url`: tune segmentation and iReal URL ingestion;
* `src/choco/converters/lark_converter.py` — dialect dispatch.

Python dicts are modelled as association lists with unique keys
(insert-or-replace), `defaultdict(int)` increments as lookup-with-default
plus replace, and exceptions as `Except`/`Option` results.
-/

namespace Choco

/-! ## Python dict model

`dictGet` is `d[k]` as an `Option`, `dictSet` is `d[k] = v`
(replace the existing binding or append a fresh one, as CPython dicts
keep insertion order), `dictUpdate` is `d.update(e)` (each binding of `e`
written into `d`, replacing on key collision), and `dictIncr` is
`defaultdict(int)`'s `d[k] += 1`. -/

def dictGet {α β : Type} [DecidableEq α] (d : List (α × β)) (k : α) : Option β :=
  match d with
  | [] => none
  | kv :: rest => if kv.1 = k then some kv.2 else dictGet rest k

def dictSet {α β : Type} [DecidableEq α] (d : List (α × β)) (k : α) (v : β) :
    List (α × β) :=
  match d with
  | [] => [(k, v)]
  | kv :: rest => if kv.1 = k then (k, v) :: rest else kv :: dictSet rest k v

def dictUpdate {α β : Type} [DecidableEq α] (d e : List (α × β)) : List (α × β) :=
  e.foldl (fun acc kv => dictSet acc kv.1 kv.2) d

def dictIncr {α : Type} [DecidableEq α] (d : List (α × Nat)) (k : α) :
    List (α × Nat) :=
  dictSet d k ((dictGet d k).getD 0 + 1)

/-- Keys of an association list. -/
def dictKeys {α β : Type} (d : List (α × β)) : List α :=
  d.map Prod.fst

/-! ## Conversion metadata (converter_instances.py)

`parse_jams` builds `chord_metadata = defaultdict(int)` and runs
`chord_metadata[(observation.value, converted_value)] += 1` per chord
observation; `parse_jams_dataset` starts from `metadata = {}` and runs
`metadata.update(file_metadata)` after each file. -/

/-- A chord-string pair (original value, converted value), the key of the
conversion-metadata table. -/
abbrev ChordPair := String × String

/-- The per-file `chord_metadata` table of `parse_jams`: fold
`defaultdict(int)` increments over the (original, converted) pairs met in
file order (converter_instances.py line 50). -/
def fileMeta (pairs : List ChordPair) : List (ChordPair × Nat) :=
  pairs.foldl (fun d p => dictIncr d p) []

/-- The aggregate `metadata` table of `parse_jams_dataset`: start from the
empty dict and run `metadata.update(file_metadata)` per file
(converter_instances.py lines 86-93). `dict.update` overwrites the value
of a colliding key; it does not add counts. -/
def datasetMeta (files : List (List ChordPair)) : List (ChordPair × Nat) :=
  files.foldl (fun m f => dictUpdate m (fileMeta f)) []

/-! ## Python str.replace

`pyReplace s pat repl` is Python `s.replace(pat, repl)`: scan left to
right, replace each non-overlapping occurrence of `pat` and resume after
the replacement text (the replacement itself is not rescanned). -/

def pyReplaceAux (pat repl : List Char) : Nat → List Char → List Char
  | _, [] => []
  | 0, s => s
  | fuel + 1, c :: cs =>
    if pat ≠ [] ∧ List.isPrefixOf pat (c :: cs) then
      repl ++ pyReplaceAux pat repl fuel (List.drop (pat.length - 1) cs)
    else
      c :: pyReplaceAux pat repl fuel cs

def pyReplace (s pat repl : String) : String :=
  String.mk (pyReplaceAux pat.data repl.data s.data.length s.data)

/-! ## JAMS observations and annotations (converter_instances.py)

A JAMS observation carries (time, duration, value, confidence); the
numeric fields are opaque to the converter (it only copies them), so they
are modelled by a type parameter `α`. An annotation is a namespace tag
plus its observations. -/

structure Obs (α : Type) where
  time : α
  duration : α
  value : String
  confidence : α
deriving DecidableEq

structure Ann (α : Type) where
  ns : String
  data : List (Obs α)
deriving DecidableEq

/-- Chord conversion of one observation (converter_instances.py lines
45-49): `converted_annotation.append(time=observation.time,
duration=observation.duration, value=converted_value,
confidence=observation.confidence)` builds a fresh observation; the
original is only read. `conv` stands for
`ChordConverter(annotation_type).convert_chords`, whose module is not in
the sources under verification. -/
def convertChordObs {α : Type} (conv : String → String) (o : Obs α) : Obs α :=
  { time := o.time, duration := o.duration, value := conv o.value,
    confidence := o.confidence }

/-- Key-string normalization (converter_instances.py lines 57-58):
`key_observation.value.replace('-', ':').replace('maj',
'major').replace('min', 'minor')`. -/
def convertKey (v : String) : String :=
  pyReplace (pyReplace (pyReplace v "-" ":") "maj" "major") "min" "minor"

/-- Key conversion of one observation (converter_instances.py lines
59-60): a fresh observation with the same time, duration and confidence
and the normalized value. -/
def convertKeyObs {α : Type} (o : Obs α) : Obs α :=
  { time := o.time, duration := o.duration, value := convertKey o.value,
    confidence := o.confidence }

/-- The converted chord annotation for one original annotation
(converter_instances.py lines 43-51): namespace `chord_harte`, one
converted observation per original observation, in order. -/
def convertChordAnn {α : Type} (conv : String → String) (a : Ann α) : Ann α :=
  { ns := "chord_harte", data := a.data.map (convertChordObs conv) }

/-- The converted key annotation (converter_instances.py lines 52-63):
namespace `key_mode`, one normalized observation per original. -/
def convertKeyAnn {α : Type} (a : Ann α) : Ann α :=
  { ns := "key_mode", data := a.data.map convertKeyObs }

/-- The `all_annotations` list built by the main loop of `parse_jams`
(converter_instances.py lines 39-63): for each original annotation, a
converted chord annotation when its namespace is in `CHORD_NAMESPACES`
(the list `chordNs`, imported from a constants module not in the sources
under verification), else a converted key annotation when its namespace
is `key_mode`, else nothing. -/
def allConvertedAnns {α : Type} (chordNs : List String)
    (conv : String → String) (anns : List (Ann α)) : List (Ann α) :=
  anns.filterMap fun a =>
    if a.ns ∈ chordNs then some (convertChordAnn conv a)
    else if a.ns = "key_mode" then some (convertKeyAnn a)
    else none

/-- The annotation list of the output container built by `parse_jams`
(converter_instances.py lines 65-71): when `replace` is false, first the
original annotations whose namespace is not `key_mode`, then all
converted annotations; when `replace` is true, the converted annotations
only. -/
def parse_jams_merge {α : Type} (chordNs : List String)
    (conv : String → String) (replace : Bool) (anns : List (Ann α)) :
    List (Ann α) :=
  (if replace = false then anns.filter (fun a => a.ns != "key_mode") else [])
    ++ allConvertedAnns chordNs conv anns

/-- The (original value, converted value) pairs counted into
`chord_metadata` by `parse_jams` (converter_instances.py line 50), in
observation order: only chord-namespace annotations contribute. -/
def parse_jams_chord_pairs {α : Type} (chordNs : List String)
    (conv : String → String) (anns : List (Ann α)) : List ChordPair :=
  ((anns.filter (fun a => chordNs.contains a.ns)).map
    (fun a => a.data.map (fun o => (o.value, conv o.value)))).flatten

/-! ## Batch run of the dataset pipeline (converter_instances.py)

`jam.save` is wrapped in `try/except jams.exceptions.SchemaError`: on
`SchemaError` the error is logged and `parse_jams` falls off the end,
returning `None`; any other exception (for instance an I/O `OSError`)
propagates out of `parse_jams`. `parse_jams_dataset` then runs
`metadata.update(file_metadata)` on the returned value: updating a dict
with `None` raises `TypeError`. -/

inductive SaveOutcome : Type
  | success : SaveOutcome
  | schemaError : SaveOutcome
  | ioError : SaveOutcome
deriving DecidableEq

structure JamsFile (α : Type) where
  anns : List (Ann α)
  save : SaveOutcome

/-- Outcome of one `parse_jams` call, restricted to its metadata result
(converter_instances.py lines 28-78): `.ok (some table)` on a successful
save, `.ok none` when the save raises `SchemaError` (caught and logged,
so the function returns `None`), `.error` when the save raises any other
exception (uncaught, so it propagates). -/
def parse_jams_run {α : Type} (chordNs : List String)
    (conv : String → String) (f : JamsFile α) :
    Except String (Option (List (ChordPair × Nat))) :=
  match f.save with
  | .success => .ok (some (fileMeta (parse_jams_chord_pairs chordNs conv f.anns)))
  | .schemaError => .ok none
  | .ioError => .error "OSError propagated out of jam.save"

/-- The aggregate-metadata phase of `parse_jams_dataset`
(converter_instances.py lines 86-93): fold over the files, calling
`parse_jams` and then `metadata.update(file_metadata)`. A propagated
exception from `parse_jams`, or the `TypeError` raised by
`dict.update(None)` after a caught save failure, aborts the whole batch
before the aggregate table is finalized. -/
def parse_jams_dataset_run {α : Type} (chordNs : List String)
    (conv : String → String) (files : List (JamsFile α)) :
    Except String (List (ChordPair × Nat)) :=
  files.foldlM
    (fun m f =>
      match parse_jams_run chordNs conv f with
      | .error e => .error e
      | .ok none => .error "TypeError: NoneType object is not iterable"
      | .ok (some fm) => .ok (dictUpdate m fm))
    []

/-! ## Tune segmentation (parsers.py, class ChoCoTune)

`_get_measures` pipes the chord string through the inherited rewriting
stages (`_cleanup_chord_string`, `_remove_annotations`,
`_fill_long_repeats`, `_fill_codas`, `_fill_single_double_repeats`,
`_fill_slashes`, all provided by the external pyRealParser package, hence
function parameters here), with the split on measure-boundary markers and
the discarding of blank measures written out in parsers.py itself
(lines 26-27). -/

/-- Python str.strip whitespace set. -/
def pyWhitespace (c : Char) : Bool :=
  c == ' ' || c == '\t' || c == '\n' || c == '\r' || c == '\x0b' || c == '\x0c'

def pyStripList (l : List Char) : List Char :=
  ((l.dropWhile pyWhitespace).reverse.dropWhile pyWhitespace).reverse

/-- Python `m.strip()`. -/
def pyStrip (s : String) : String :=
  String.mk (pyStripList s.data)

/-- Characters on which the single-character alternatives of the regex
`\||LZ|K|Z|{|}|\[|\]` match. -/
def isSepChar (c : Char) : Bool :=
  c == '|' || c == 'K' || c == 'Z' || c == '{' || c == '}' || c == '[' || c == ']'

/-- Occurrences of a character in a character list. -/
def countChar (c : Char) : List Char → Nat
  | [] => 0
  | d :: rest => (if d = c then 1 else 0) + countChar c rest

/-- Python `re.split` of parsers.py line 26 on the list of characters:
scan left to right; at each position the two-character alternative `LZ`
or a single separator character opens a new field, anything else extends
the current field. `fuel` bounds the recursion depth and is called with
the input length, which suffices since each step consumes at least one
character. -/
def reSplitBarsAux : Nat → List Char → List (List Char)
  | _, [] => [[]]
  | 0, l => [l]
  | fuel + 1, c :: rest =>
    if c = 'L' ∧ rest.head? = some 'Z' then
      [] :: reSplitBarsAux fuel (rest.drop 1)
    else if isSepChar c then
      [] :: reSplitBarsAux fuel rest
    else
      match reSplitBarsAux fuel rest with
      | [] => [[c]]
      | t :: ts => (c :: t) :: ts

/-- The fields produced by `re.split(r'\||LZ|K|Z|{|}|\[|\]',
chord_string)`. -/
def reSplitBars (l : List Char) : List (List Char) :=
  reSplitBarsAux l.length l

/-- Lines 26-27 of parsers.py: split on the measure-boundary regex, strip
each field, and keep only the non-blank fields. -/
def splitMeasures (s : String) : List String :=
  ((reSplitBars s.data).map (fun f => pyStrip (String.mk f))).filter
    (fun m => m != "")

namespace ChoCoTune

/-- `ChoCoTune._get_measures` (parsers.py lines 13-31). The six inherited
pyRealParser rewriting stages are taken as parameters; the split and the
blank-measure filter are `splitMeasures`. -/
def get_measures (cleanup removeAnnots fillLongRepeats fillCodas : String → String)
    (fillSingleDoubleRepeats fillSlashes : List String → List String)
    (chord_string : String) : List String :=
  let s1 := cleanup chord_string
  let s2 := removeAnnots s1
  let s3 := fillLongRepeats s2
  let s4 := fillCodas s3
  let measures := splitMeasures s4
  let measures2 := fillSingleDoubleRepeats measures
  fillSlashes measures2

end ChoCoTune

/-- The segmentation pipeline as the specification words it (section 4.4,
stages 1-6 in order): strip annotations, expand long repeats, expand
codas, split discarding blank measures, expand single/double repeats,
expand slash markers, each stage consuming the previous stage's
output. -/
def specSegmentationOrder (removeAnnots fillLongRepeats fillCodas : String → String)
    (fillSingleDoubleRepeats fillSlashes : List String → List String)
    (s : String) : List String :=
  fillSlashes (fillSingleDoubleRepeats (splitMeasures
    (fillCodas (fillLongRepeats (removeAnnots s)))))

/-! ## iReal URL ingestion (parsers.py, parse_ireal_url)

The function first applies `urllib.parse.unquote`; the model takes the
already-decoded string, which is also how the claims about it are
phrased. `re.match(r'irealb://([^\x7b]+)', url)` — with the character
class excluding the double quote — succeeds exactly when the decoded
string starts with `irealb://` followed by at least one character other
than a double quote, and captures the maximal run of such characters. -/

def pyStartsWith (s pre : String) : Bool :=
  List.isPrefixOf pre.data s.data

/-- The anchored regex match of parsers.py line 42: `some payload` is
`match.group(1)`, `none` is a failed match. -/
def irealMatch (url : String) : Option String :=
  if pyStartsWith url "irealb://" then
    let payload := (url.data.drop 9).takeWhile (fun c => c != '\"')
    if payload = [] then none else some (String.mk payload)
  else none

/-- Python `re.split` on a fixed non-empty separator: non-overlapping,
left to right, with `fuel` bounding recursion depth (called with the
input length, which suffices since each step consumes at least one
character). -/
def splitSepAux (sep : List Char) : Nat → List Char → List (List Char)
  | _, [] => [[]]
  | 0, l => [l]
  | fuel + 1, c :: cs =>
    if sep ≠ [] ∧ List.isPrefixOf sep (c :: cs) then
      [] :: splitSepAux sep fuel (List.drop (sep.length - 1) cs)
    else
      match splitSepAux sep fuel cs with
      | [] => [[c]]
      | t :: ts => (c :: t) :: ts

/-- Python `re.split("===", s)` generalized to any fixed separator. -/
def pySplit (s sep : String) : List String :=
  (splitSepAux sep.data s.data.length s.data).map String.mk

namespace ChoCoTune

/-- The song loop of `parse_ireal_url` (parsers.py lines 47-55): for
each song segment in order, skip it when empty, otherwise construct the
tune and append it to `tunes` on success, or log and skip the segment
when the constructor raises. `mk` models the `ChoCoTune(song)`
constructor; the list produced front to back equals the list the loop
builds by appending. -/
def collectTunes {τ : Type} (mk : String → Except String τ) :
    List String → List τ
  | [] => []
  | song :: rest =>
    if song != "" then
      match mk song with
      | Except.ok t => t :: collectTunes mk rest
      | Except.error _ => collectTunes mk rest
    else collectTunes mk rest

/-- `ChoCoTune.parse_ireal_url` (parsers.py lines 33-57) after URL
decoding: reject the input unless the anchored scheme regex matches,
split the captured payload on the triple separator, and collect the
tunes of the song segments. -/
def parse_ireal_url {τ : Type} (mk : String → Except String τ)
    (url : String) : Except String (List τ) :=
  match irealMatch url with
  | none => Except.error "Provided string is not a valid iReal url!"
  | some payload => Except.ok (collectTunes mk (pySplit payload "==="))

end ChoCoTune

/-! ## Dialect dispatch (lark_converter.py and the conversion entry point)

`Parser.__init__` looks the dialect up in `DIALECT_MAP`; an unregistered
key raises `KeyError`. The `ChordConverter` class with its
`ANNOTATION_SUPPORTED` table and `convert_chords` method lives in a
`chord_converter` module that converter_instances.py imports but that is
not among the sources under verification, so the conversion entry point
is modelled from the spec. -/

inductive ConvError : Type
  | unsupportedAnnType (id : String) : ConvError
  | convFailure (token : String) : ConvError
deriving DecidableEq

inductive Grammar : Type
  | leadsheet_music21 : Grammar
  | abc_music21 : Grammar
deriving DecidableEq

/-- The dispatch table of lark_converter.py lines 23-26. -/
def DIALECT_MAP : List (String × Grammar) :=
  [("leadsheet_music21", Grammar.leadsheet_music21),
   ("abc_music21", Grammar.abc_music21)]

/-- `Parser.__init__` (lark_converter.py lines 13-28):
`DIALECT_MAP[dialect]` raises `KeyError` on an unregistered dialect,
the unsupported-annotation-type failure of the spec. -/
def parserInit (dialect : String) : Except ConvError Grammar :=
  match dictGet DIALECT_MAP dialect with
  | some g => Except.ok g
  | none => Except.error (ConvError.unsupportedAnnType dialect)

/-- Modelled from the spec: the `chord_converter` module (class
`ChordConverter`, its `ANNOTATION_SUPPORTED` registration table and its
`convert_chords` method) is imported by converter_instances.py but is not
among the sources under verification. Per spec section 4.5, `convert`
looks the declared annotation-type identifier up in the registration
table (`table`, mapping identifiers to dialect parsers), fails with the
unsupported-annotation-type error when the identifier is not registered,
and otherwise runs parser then encoder, propagating either failure as a
tagged conversion failure carrying the original token. -/
def convert {χ : Type} (table : List (String × (String → Except String χ)))
    (encode : χ → Except String String) (annType raw : String) :
    Except ConvError String :=
  match dictGet table annType with
  | none => Except.error (ConvError.unsupportedAnnType annType)
  | some p =>
    match p raw with
    | Except.error _ => Except.error (ConvError.convFailure raw)
    | Except.ok chord =>
      match encode chord with
      | Except.error _ => Except.error (ConvError.convFailure raw)
      | Except.ok s => Except.ok s

/-! ## Theorems -/

/-- C1: the claim reads that converting the same (original, converted)
pair k times in total across any number of files yields an aggregate
count of exactly k, with counts monotonically non-decreasing across
files. The code disagrees: `parse_jams_dataset` merges per-file tables
with `metadata.update(file_metadata)`, and `dict.update` overwrites a
colliding key instead of adding counts. Here the pair (C, C:maj) is
converted twice in the first file and once in the second: after the
first file its aggregate count is 2, after both files it is 1 — not the
total 3, and the count decreased. -/
theorem parse_jams_dataset_meta_overwritten :
    parse_jams_dataset_run (α := Nat) ["chord"] (fun _ => "C:maj")
        [⟨[⟨"chord", [⟨0, 1, "C", 1⟩, ⟨1, 1, "C", 1⟩]⟩], SaveOutcome.success⟩] =
      Except.ok [(("C", "C:maj"), 2)] ∧
    parse_jams_dataset_run (α := Nat) ["chord"] (fun _ => "C:maj")
        [⟨[⟨"chord", [⟨0, 1, "C", 1⟩, ⟨1, 1, "C", 1⟩]⟩], SaveOutcome.success⟩,
         ⟨[⟨"chord", [⟨0, 1, "C", 1⟩]⟩], SaveOutcome.success⟩] =
      Except.ok [(("C", "C:maj"), 1)] :=
  ⟨rfl, rfl⟩

/-- C2: the claim reads that a failed save is logged and the batch
continues, still producing the aggregate table. The code disagrees: on a
`SchemaError` from `jam.save`, `parse_jams` logs and returns `None`, and
`parse_jams_dataset` then calls `metadata.update(None)`, which raises
`TypeError` and aborts the whole batch: the second file is never
processed and no aggregate table is produced. -/
theorem parse_jams_dataset_aborts_after_schema_error :
    parse_jams_dataset_run (α := Nat) ["chord"] (fun _ => "C:maj")
        [⟨[⟨"chord", [⟨0, 1, "C", 1⟩]⟩], SaveOutcome.schemaError⟩,
         ⟨[⟨"chord", [⟨0, 1, "C", 1⟩]⟩], SaveOutcome.success⟩] =
      Except.error "TypeError: NoneType object is not iterable" :=
  rfl

/-- C3 counterexample: with `replace = False` the claim reads that every
original annotation, key annotations included, coexists with the
converted ones. The code filters original annotations with
`if oa.namespace != 'key_mode'`, so an original key_mode annotation is
absent from the output container. -/
theorem parse_jams_merge_drops_original_key_mode :
    (⟨"key_mode", [⟨0, 1, "G-min", 1⟩]⟩ : Ann Nat) ∉
      parse_jams_merge [] (fun v => v) false
        [⟨"key_mode", [⟨0, 1, "G-min", 1⟩]⟩] := by
  decide

/-- C3 amended: if replace is true the output holds exactly the
converted annotations; if replace is false it holds the original
annotations other than key_mode ones, followed by the converted
annotations — so originals other than key_mode coexist with every
converted annotation, and original key_mode annotations are dropped
regardless of replace. -/
theorem parse_jams_merge_policy {α : Type} (chordNs : List String)
    (conv : String → String) (anns : List (Ann α)) :
    parse_jams_merge chordNs conv true anns =
      allConvertedAnns chordNs conv anns ∧
    parse_jams_merge chordNs conv false anns =
      anns.filter (fun a => a.ns != "key_mode")
        ++ allConvertedAnns chordNs conv anns ∧
    (∀ a ∈ anns, a.ns ≠ "key_mode" →
      a ∈ parse_jams_merge chordNs conv false anns) ∧
    (∀ a ∈ allConvertedAnns chordNs conv anns, ∀ (r : Bool),
      a ∈ parse_jams_merge chordNs conv r anns) := by
  refine ⟨rfl, rfl, ?_, ?_⟩
  · intro a ha hns
    simp [parse_jams_merge, List.mem_filter]
    exact Or.inl ⟨ha, by simpa using hns⟩
  · intro a ha r
    cases r <;> simp [parse_jams_merge]
    · exact Or.inr ha
    · exact ha

/-- C3 witness for `parse_jams_merge_policy`: a concrete original chord
annotation is kept alongside the conversion when replace is false. -/
theorem parse_jams_merge_policy_witness :
    (⟨"chord", [⟨0, 1, "C", 1⟩]⟩ : Ann Nat) ∈
      parse_jams_merge ["chord"] (fun v => v) false
        [⟨"chord", [⟨0, 1, "C", 1⟩]⟩] :=
  (parse_jams_merge_policy ["chord"] (fun v => v)
      [⟨"chord", [⟨0, 1, "C", 1⟩]⟩]).2.2.1
    ⟨"chord", [⟨0, 1, "C", 1⟩]⟩ (by simp) (by decide)

/-- C4: the converted chord observation is a fresh record whose time,
duration and confidence equal the original observation's and whose value
is the converted chord string, and the converted annotation carries the
converted observations positionally; the original observation is only
read (the embedding of lines 45-49 of converter_instances.py builds the
new observation from field reads and leaves its input untouched). -/
theorem convertChordObs_preserves_fields {α : Type} (conv : String → String)
    (o : Obs α) (a : Ann α) :
    (convertChordObs conv o).time = o.time ∧
    (convertChordObs conv o).duration = o.duration ∧
    (convertChordObs conv o).confidence = o.confidence ∧
    (convertChordObs conv o).value = conv o.value ∧
    (convertChordAnn conv a).ns = "chord_harte" ∧
    ∀ i : Nat, (convertChordAnn conv a).data[i]? =
      (a.data[i]?).map (convertChordObs conv) := by
  refine ⟨rfl, rfl, rfl, rfl, rfl, fun i => ?_⟩
  simp [convertChordAnn]

/-- C7: `_get_measures` applies its rewriting stages in the order the
specification lists them — strip annotations, expand long repeats,
expand codas, split on measure boundaries discarding blank measures,
expand single/double repeats, expand slash markers — each stage
consuming the previous stage's output (after the initial
`_cleanup_chord_string` normalization that precedes stage 1). -/
theorem get_measures_stage_order
    (cleanup removeAnnots fillLongRepeats fillCodas : String → String)
    (fillSingleDoubleRepeats fillSlashes : List String → List String)
    (s : String) :
    ChoCoTune.get_measures cleanup removeAnnots fillLongRepeats fillCodas
        fillSingleDoubleRepeats fillSlashes s =
      specSegmentationOrder removeAnnots fillLongRepeats fillCodas
        fillSingleDoubleRepeats fillSlashes (cleanup s) :=
  rfl

/-- C10: a key_mode observation is emitted with unchanged time, duration
and confidence, its value rewritten by replacing every hyphen with a
colon, then maj with major, then min with minor; G-min becomes G:minor,
and the substitution is not idempotent: G:minor becomes G:minoror. -/
theorem convertKeyObs_normalizes :
    (∀ (α : Type) (o : Obs α),
      (convertKeyObs o).time = o.time ∧
      (convertKeyObs o).duration = o.duration ∧
      (convertKeyObs o).confidence = o.confidence ∧
      (convertKeyObs o).value = convertKey o.value) ∧
    convertKey "G-min" = "G:minor" ∧
    convertKey "G:minor" = "G:minoror" ∧
    convertKey (convertKey "G-min") ≠ convertKey "G-min" :=
  ⟨fun _ o => ⟨rfl, rfl, rfl, rfl⟩, by decide, by decide, by decide⟩

/-- Helper: the song loop of `parse_ireal_url` collects, in order,
exactly the tunes of the non-empty segments whose construction
succeeds. -/
theorem collectTunes_eq_filterMap {τ : Type} (mk : String → Except String τ)
    (songs : List String) :
    ChoCoTune.collectTunes mk songs
      = (songs.filter (fun s => s != "")).filterMap
          (fun s => (mk s).toOption) := by
  induction songs with
  | nil => rfl
  | cons s rest ih =>
    by_cases h : s = ""
    · subst h
      simpa [ChoCoTune.collectTunes] using ih
    · have hb : (s != "") = true := by simpa using h
      cases hmk : mk s with
      | ok t => simp [ChoCoTune.collectTunes, hb, hmk, ih, Except.toOption]
      | error e => simp [ChoCoTune.collectTunes, hb, hmk, ih, Except.toOption]

/-- C5: for every accepted iReal URL, the decoded payload is split on
the triple separator; a non-empty segment whose `ChoCoTune` construction
raises is skipped while every other segment is still parsed, so the
returned list holds exactly the tunes of the well-formed segments in
order. -/
theorem parse_ireal_url_skips_malformed {τ : Type}
    (mk : String → Except String τ) (url payload : String)
    (h : irealMatch url = some payload) :
    ChoCoTune.parse_ireal_url mk url =
      Except.ok (((pySplit payload "===").filter (fun s => s != "")).filterMap
        (fun s => (mk s).toOption)) := by
  unfold ChoCoTune.parse_ireal_url
  rw [h]
  show Except.ok (ChoCoTune.collectTunes mk (pySplit payload "===")) = _
  rw [collectTunes_eq_filterMap]

/-- C5 witness for `parse_ireal_url_skips_malformed`: two well-formed
segments around a malformed one yield exactly the two tunes. -/
theorem parse_ireal_url_skips_malformed_witness :
    ChoCoTune.parse_ireal_url
        (fun s => if s = "bad" then Except.error "broken segment"
                  else Except.ok s)
        "irealb://A===bad===B" = Except.ok ["A", "B"] := by
  rw [parse_ireal_url_skips_malformed
    (fun s => if s = "bad" then Except.error "broken segment"
              else Except.ok s)
    "irealb://A===bad===B" "A===bad===B" rfl]
  rfl

/-- C9: an input whose decoded form does not begin with the scheme
prefix makes `parse_ireal_url` raise the `RuntimeError` instead of
returning a list of tunes. -/
theorem parse_ireal_url_rejects_bad_scheme {τ : Type}
    (mk : String → Except String τ) (url : String)
    (h : pyStartsWith url "irealb://" = false) :
    ChoCoTune.parse_ireal_url mk url =
      Except.error "Provided string is not a valid iReal url!" := by
  unfold ChoCoTune.parse_ireal_url irealMatch
  rw [h]
  rfl

/-- C9 witness for `parse_ireal_url_rejects_bad_scheme`. -/
theorem parse_ireal_url_rejects_bad_scheme_witness :
    ChoCoTune.parse_ireal_url (fun s => Except.ok s) "http://example.com" =
      Except.error "Provided string is not a valid iReal url!" :=
  parse_ireal_url_rejects_bad_scheme (fun s => Except.ok s)
    "http://example.com" (by decide)

/-- C6: an annotation-type identifier missing from the registration
table makes both the source dialect dispatch (`Parser.__init__`, whose
`DIALECT_MAP[dialect]` lookup raises on an unregistered key) and the
spec-modelled conversion entry point fail with the
unsupported-annotation-type error, while parse and encode failures of a
registered dialect are propagated as the tagged conversion failure
carrying the original token. -/
theorem convert_dispatch_errors {χ : Type}
    (table : List (String × (String → Except String χ)))
    (encode : χ → Except String String) (annType raw : String) :
    (dictGet table annType = none →
      convert table encode annType raw =
        Except.error (ConvError.unsupportedAnnType annType)) ∧
    (dictGet DIALECT_MAP annType = none →
      parserInit annType =
        Except.error (ConvError.unsupportedAnnType annType)) ∧
    (∀ p e, dictGet table annType = some p → p raw = Except.error e →
      convert table encode annType raw =
        Except.error (ConvError.convFailure raw)) ∧
    (∀ p c e, dictGet table annType = some p → p raw = Except.ok c →
      encode c = Except.error e →
      convert table encode annType raw =
        Except.error (ConvError.convFailure raw)) := by
  refine ⟨?_, ?_, ?_, ?_⟩
  · intro h
    simp [convert, h]
  · intro h
    simp [parserInit, h]
  · intro p e hp hraw
    simp [convert, hp, hraw]
  · intro p c e hp hraw henc
    simp [convert, hp, hraw, henc]

/-- C6 witness for `convert_dispatch_errors`: an unregistered identifier
fails with the unsupported-annotation-type error in both the table-driven
entry point and the source dialect dispatch, and a registered dialect
whose parse or encode fails yields the tagged conversion failure with
the offending token. -/
theorem convert_dispatch_errors_witness :
    convert ([] : List (String × (String → Except String Unit)))
        (fun _ => Except.ok "") "roman_numeral" "ii" =
      Except.error (ConvError.unsupportedAnnType "roman_numeral") ∧
    parserInit "roman_numeral" =
      Except.error (ConvError.unsupportedAnnType "roman_numeral") ∧
    convert [("leadsheet_music21",
        fun _ => (Except.error "parse failure" : Except String Unit))]
        (fun _ => Except.ok "") "leadsheet_music21" "Q##!" =
      Except.error (ConvError.convFailure "Q##!") ∧
    convert [("abc_music21",
        fun _ => (Except.ok () : Except String Unit))]
        (fun _ => Except.error "encode failure") "abc_music21" "C*5" =
      Except.error (ConvError.convFailure "C*5") :=
  ⟨(convert_dispatch_errors [] (fun _ => Except.ok "") "roman_numeral" "ii").1
      rfl,
   (convert_dispatch_errors ([] : List (String × (String → Except String Unit)))
      (fun _ => Except.ok "") "roman_numeral" "ii").2.1 rfl,
   (convert_dispatch_errors [("leadsheet_music21",
        fun _ => (Except.error "parse failure" : Except String Unit))]
      (fun _ => Except.ok "") "leadsheet_music21" "Q##!").2.2.1
      _ "parse failure" rfl rfl,
   (convert_dispatch_errors [("abc_music21",
        fun _ => (Except.ok () : Except String Unit))]
      (fun _ => Except.error "encode failure") "abc_music21" "C*5").2.2.2
      _ () "encode failure" rfl rfl rfl⟩

/-- Helper: the regex split never produces an empty field list. -/
theorem reSplitBarsAux_ne_nil (fuel : Nat) (l : List Char) :
    reSplitBarsAux fuel l ≠ [] := by
  cases l with
  | nil => cases fuel <;> simp [reSplitBarsAux]
  | cons c rest =>
    cases fuel with
    | zero => simp [reSplitBarsAux]
    | succ fuel =>
      simp only [reSplitBarsAux]
      split
      · simp
      · split
        · simp
        · split <;> simp

/-- Helper: on a string whose only separator characters are bar lines,
the regex split yields one field more than the number of bar lines. -/
theorem reSplitBarsAux_length (fuel : Nat) : ∀ (l : List Char),
    l.length ≤ fuel →
    (∀ c ∈ l, isSepChar c = true → c = '|') →
    (reSplitBarsAux fuel l).length = countChar '|' l + 1 := by
  induction fuel with
  | zero =>
    intro l hlen hsep
    cases l with
    | nil => rfl
    | cons c rest => simp at hlen
  | succ fuel ih =>
    intro l hlen hsep
    cases l with
    | nil => rfl
    | cons c rest =>
      have hlen2 : rest.length ≤ fuel := by
        simp at hlen
        omega
      have hsep2 : ∀ d ∈ rest, isSepChar d = true → d = '|' := fun d hd =>
        hsep d (List.mem_cons_of_mem _ hd)
      have hZ : ¬(c = 'L' ∧ rest.head? = some 'Z') := by
        rintro ⟨hc, hh⟩
        have hmem : 'Z' ∈ c :: rest := by
          cases rest with
          | nil => simp at hh
          | cons d rest2 =>
            simp at hh
            subst hh
            exact List.mem_cons_of_mem _ (List.mem_cons_self _ _)
        have h1 := hsep 'Z' hmem (by decide)
        exact absurd h1 (by decide)
      simp only [reSplitBarsAux, if_neg hZ]
      by_cases hs : isSepChar c = true
      · have hc : c = '|' := hsep c (List.mem_cons_self _ _) hs
        subst hc
        rw [if_pos hs]
        have hrec := ih rest hlen2 hsep2
        simp [hrec, countChar]
        omega
      · rw [if_neg hs]
        have hc : c ≠ '|' := fun h => hs (by rw [h]; decide)
        have hrec := ih rest hlen2 hsep2
        obtain ⟨t, ts, heq⟩ : ∃ t ts, reSplitBarsAux fuel rest = t :: ts := by
          cases hr : reSplitBarsAux fuel rest with
          | nil => exact absurd hr (reSplitBarsAux_ne_nil fuel rest)
          | cons t ts => exact ⟨t, ts, rfl⟩
        rw [heq]
        show ((c :: t) :: ts).length = countChar '|' (c :: rest) + 1
        have h3 : ((c :: t) :: ts).length = (t :: ts).length := by simp
        rw [h3, ← heq, hrec]
        simp [countChar, hc]

/-- Helper: `reSplitBars` field count on bar-line-only strings. -/
theorem reSplitBars_length (l : List Char)
    (hsep : ∀ c ∈ l, isSepChar c = true → c = '|') :
    (reSplitBars l).length = countChar '|' l + 1 :=
  reSplitBarsAux_length l.length l (le_refl _) hsep

/-- C8 counterexample: the claim reads that a string with N literal
bar-line markers and no repeat shorthand yields exactly N + 1 non-empty
measures even with trailing or leading separators. The string C| has one
bar-line marker, yet `_get_measures` (its rewriting stages being no-ops
on it) yields one measure, not two: the trailing separator produces a
blank field that is discarded, so the count drops below N + 1. -/
theorem get_measures_trailing_bar_counterexample :
    countChar '|' "C|".data = 1 ∧
    (ChoCoTune.get_measures id id id id id id "C|").length = 1 := by
  decide

/-- C8 amended: on a tune string whose separator characters are exactly
its N bar-line markers and on which the shorthand-rewriting stages are
no-ops (no repeat shorthand), `_get_measures` yields at most N + 1
non-empty measures, and exactly N + 1 when every field delimited by the
markers is non-blank; blank fields from leading, trailing or adjacent
separators are discarded before being counted, never yielding an extra
empty measure. -/
theorem get_measures_bar_count
    (cleanup removeAnnots fillLongRepeats fillCodas : String → String)
    (fillSingleDoubleRepeats fillSlashes : List String → List String)
    (s : String) (N : Nat)
    (hstages : fillCodas (fillLongRepeats (removeAnnots (cleanup s))) = s)
    (hsd : fillSingleDoubleRepeats (splitMeasures s) = splitMeasures s)
    (hsl : fillSlashes (splitMeasures s) = splitMeasures s)
    (hbars : countChar '|' s.data = N)
    (hsep : ∀ c ∈ s.data, isSepChar c = true → c = '|') :
    (ChoCoTune.get_measures cleanup removeAnnots fillLongRepeats fillCodas
        fillSingleDoubleRepeats fillSlashes s).length ≤ N + 1 ∧
    ((∀ f ∈ reSplitBars s.data, pyStripList f ≠ []) →
      (ChoCoTune.get_measures cleanup removeAnnots fillLongRepeats fillCodas
          fillSingleDoubleRepeats fillSlashes s).length = N + 1) := by
  have h0 : ChoCoTune.get_measures cleanup removeAnnots fillLongRepeats
      fillCodas fillSingleDoubleRepeats fillSlashes s = splitMeasures s := by
    show fillSlashes (fillSingleDoubleRepeats (splitMeasures
      (fillCodas (fillLongRepeats (removeAnnots (cleanup s)))))) = splitMeasures s
    rw [hstages, hsd, hsl]
  have hfields : (reSplitBars s.data).length = N + 1 := by
    rw [reSplitBars_length s.data hsep, hbars]
  constructor
  · rw [h0]
    show ((((reSplitBars s.data).map (fun f => pyStrip (String.mk f))).filter
      (fun m => m != "")).length) ≤ N + 1
    have h1 := List.length_filter_le (fun m => m != "")
      ((reSplitBars s.data).map (fun f => pyStrip (String.mk f)))
    rw [List.length_map, hfields] at h1
    exact h1
  · intro hnb
    rw [h0]
    show ((((reSplitBars s.data).map (fun f => pyStrip (String.mk f))).filter
      (fun m => m != "")).length) = N + 1
    have hall : ∀ m ∈ (reSplitBars s.data).map
        (fun f => pyStrip (String.mk f)), (m != "") = true := by
      intro m hm
      obtain ⟨f, hf, rfl⟩ := List.mem_map.mp hm
      have h2 := hnb f hf
      simp only [bne_iff_ne, ne_eq, pyStrip]
      intro hm0
      exact h2 (by simpa using congrArg String.data hm0)
    rw [List.filter_eq_self.mpr hall, List.length_map, hfields]

/-- C8 witness for `get_measures_bar_count`: one interior bar line with
non-blank content on both sides yields exactly two measures. -/
theorem get_measures_bar_count_witness :
    (ChoCoTune.get_measures id id id id id id "C | G").length = 1 + 1 :=
  (get_measures_bar_count id id id id id id "C | G" 1 rfl rfl rfl
      (by decide) (by decide)).2 (by decide)

end Choco
